import Mathlib

/-!
Shallow embedding of the turtlebot2-mas agent control core
(src/code/RobotWorld/__init__.py and src/code/LindaProxy/Redis2LINDA.py).

Strings are modelled as Lean `String` (or `List Char` for the character-level
atomization), Python floats as `ℚ`, and the mutable `Brain` fields as an
explicit state record threaded through a pure `think` step.  External side
effects of a cycle (whether `world.act('stop')` was issued and whether the
DALI reasoner was consulted) are returned as observable flags; the action
text DALI would return is passed in as an oracle argument.
-/

namespace RobotWorld

/-- Canonical state built by `Brain.perception`: lower-cased color, position
and load plus the depth reading (`new_state` dict in the source). -/
structure CanonState where
  color : String
  position : String
  depth : ℚ
  load : String
  deriving DecidableEq

/-- The depth threshold `self._depth_treshold = 0.17` used to detect
obstacles (written `mkRat` so that concrete instances evaluate). -/
def depthThreshold : ℚ := mkRat 17 100

/-- The hysteresis constant `0.02` in `Brain.compare_states`. -/
def hysteresis : ℚ := mkRat 2 100

/-- Python's `abs(a - b)` on rationals, written with `mkRat` so that it
evaluates inside the kernel (Batteries marks `Rat.sub` irreducible);
`ratAbsDiff_eq_abs_sub` below proves it equal to `|a - b|`. -/
def ratAbsDiff (a b : ℚ) : ℚ :=
  let d : ℚ := mkRat (a.num * (b.den : Int) - b.num * (a.den : Int)) (a.den * b.den)
  if d < 0 then -d else d

/-- Embedding of `Brain.compare_states`: true iff color, position or load
differ, or the new depth is at least `0.02` away from the stored
`self._dali_depth` (the old state's depth is never consulted). -/
def compare_states (dali_depth : ℚ) (old new : CanonState) : Bool :=
  decide (old.color ≠ new.color) ||
  decide (old.position ≠ new.position) ||
  decide (old.load ≠ new.load) ||
  decide (hysteresis ≤ ratAbsDiff new.depth dali_depth)

/-- The mutable fields of `Brain` that the control cycle reads and writes.
`dali_depth` is initialised to `""` in Python but is overwritten in
`perception` before its first use in a comparison, so `0` is a faithful
initial placeholder. -/
structure BrainState where
  state : Option CanonState
  dali_depth : ℚ
  no_dali_count : Nat
  previous_action : Option String
  deriving DecidableEq

/-- Observable outcome of one `Brain.think` call: the updated brain fields,
the returned action, whether `decision()` (the external reasoner) was
called, and whether `world.act('stop')` was issued this cycle. -/
structure ThinkResult where
  brain : BrainState
  action : Option String
  consulted : Bool
  stopIssued : Bool
  deriving DecidableEq

/-- Embedding of `Brain.think` (with `perception`, `decision`'s state
effects and `ground_decision` inlined).  `perception` returns
`changed = True` and adopts `dali_depth := new.depth` on the first cycle
(`self._state is None`), otherwise `changed = compare_states`; `think`
then stores `new` as the current state.  If `changed or count > 5` the
main branch stops the unit, zeroes the counter, consults (which sets
`dali_depth := new.depth`) and records the action; otherwise
`ground_decision` consults without any of those effects when
`depth <= 0.17`, else replays `previous_action`, and in either case the
counter is incremented afterwards. -/
def think (b : BrainState) (new : CanonState) (oracle : String) : ThinkResult :=
  let pc : Bool × BrainState :=
    match b.state with
    | none => (true, { b with state := some new, dali_depth := new.depth })
    | some old => (compare_states b.dali_depth old new, { b with state := some new })
  let changed := pc.1
  let b1 := pc.2
  if changed || decide (5 < b1.no_dali_count) then
    ⟨{ b1 with no_dali_count := 0, dali_depth := new.depth, previous_action := some oracle }, some oracle, true, true⟩
  else if decide (new.depth ≤ depthThreshold) then
    ⟨{ b1 with dali_depth := new.depth, no_dali_count := b1.no_dali_count + 1 }, some oracle, true, false⟩
  else
    ⟨{ b1 with no_dali_count := b1.no_dali_count + 1 }, b1.previous_action, false, false⟩

/-- Iterate `think` over a list of (sensor-derived state, oracle action)
pairs, returning the final brain state. -/
def runBrain (b : BrainState) : List (CanonState × String) → BrainState
  | [] => b
  | (s, a) :: rest => runBrain (think b s a).brain rest

/-- Iterate `think`, returning the per-cycle `consulted` flags. -/
def runTrace (b : BrainState) : List (CanonState × String) → List Bool
  | [] => []
  | (s, a) :: rest => (think b s a).consulted :: runTrace (think b s a).brain rest

/-- The `Brain` fields as set by `Brain.__init__`. -/
def initialBrain : BrainState :=
  { state := none, dali_depth := 0, no_dali_count := 0, previous_action := none }

/-- Index of the first `:` in a character list, mirroring Python's
`msg.index(':')` (which raises `ValueError`, modelled as `none`, when the
delimiter is absent). -/
def findColon : List Char → Option Nat
  | [] => none
  | c :: rest => if c = ':' then some 0 else (findColon rest).map (· + 1)

/-- Numeric value of a decimal digit character, `none` otherwise. -/
def digit? (c : Char) : Option Nat :=
  if c = '0' then some 0
  else if c = '1' then some 1
  else if c = '2' then some 2
  else if c = '3' then some 3
  else if c = '4' then some 4
  else if c = '5' then some 5
  else if c = '6' then some 6
  else if c = '7' then some 7
  else if c = '8' then some 8
  else if c = '9' then some 9
  else none

/-- Parse a nonempty all-digit character list as a natural number. -/
def parseNatDigits (cs : List Char) : Option Nat :=
  match cs with
  | [] => none
  | _ =>
    cs.foldl
      (fun acc c =>
        match acc, digit? c with
        | some a, some d => some (a * 10 + d)
        | _, _ => none)
      (some 0)

/-- Model of Python's `int(s)` on the strings this system passes it: an
optional sign followed by decimal digits, `none` (a `ValueError`) on
anything else.  (Python additionally strips whitespace and allows digit
group underscores; no caller in this system produces those.) -/
def parseInt (cs : List Char) : Option Int :=
  match cs with
  | '-' :: rest => (parseNatDigits rest).map fun n => -(n : Int)
  | '+' :: rest => (parseNatDigits rest).map fun n => (n : Int)
  | _ => (parseNatDigits cs).map fun n => (n : Int)

/-- Outcome of handling one pubsub message inside `Brain.decision`'s
receive loop. -/
inductive FrameResult where
  | crash
  | skip
  | got (a : String)
  deriving DecidableEq

/-- Embedding of the per-frame body of `Brain.decision`'s loop:
`separator = msg.index(':')` (uncaught `ValueError` if there is no `:`),
`name = int(msg[:separator])` (uncaught `ValueError` if not an integer),
`continue` when `name != self._port`, else return `msg[separator+1:]`. -/
def processFrame (port : Int) (msg : String) : FrameResult :=
  match findColon msg.toList with
  | none => .crash
  | some i =>
    match parseInt (msg.toList.take i) with
    | none => .crash
    | some name => if name = port then .got (String.mk (msg.toList.drop (i + 1))) else .skip

/-- Result of running `Brain.decision`'s receive loop over a finite prefix
of the incoming message stream: it either crashes on a bad frame, is still
waiting after the prefix, or returns the first matching action. -/
inductive LoopResult where
  | crash
  | waiting
  | got (a : String)
  deriving DecidableEq

/-- Embedding of `Brain.decision`'s blocking `for item in self._sub.listen()`
loop, restricted to the `'message'`-typed items it inspects. -/
def consultLoop (port : Int) : List String → LoopResult
  | [] => .waiting
  | msg :: rest =>
    match processFrame port msg with
    | .crash => .crash
    | .skip => consultLoop port rest
    | .got a => .got a

/-- Elementary command issued by `World.act`, or the way the call ends
without one. -/
inductive ActResult where
  | stopped
  | unloaded
  | loaded
  | went (v : Int)
  | turnedRight (v : Int)
  | turnedLeft (v : Int)
  | err
  | noop
  deriving DecidableEq

/-- Embedding of `World.act`.  Without a `:` the three parameterless verbs
are handled in the `except` block; any other such action falls through to
`int(action[None+1:])`, a `TypeError` that propagates (`err`).  With a `:`
the parameter is parsed first (`int` raises on a malformed value, `err`),
then the verb is dispatched; an unknown verb reaches the end of the
function and silently returns `None` (`noop`). -/
def act (action : String) : ActResult :=
  match findColon action.toList with
  | none =>
    if action = "stop" then .stopped
    else if action = "unload" then .unloaded
    else if action = "loadup" then .loaded
    else .err
  | some i =>
    match parseInt (action.toList.drop (i + 1)) with
    | none => .err
    | some v =>
      if String.mk (action.toList.take i) = "go" then .went v
      else if String.mk (action.toList.take i) = "right" then .turnedRight v
      else if String.mk (action.toList.take i) = "left" then .turnedLeft v
      else .noop

/-- Single-quote character, written by code point to keep the sources free
of bare apostrophes. -/
def apos : String := String.singleton (Char.ofNat 39)

/-- Embedding of the fact-bundle construction in `Brain.decision`: the
`near`/`far` classification, the four facts and the dynamic directives,
concatenated in the source's order `meta vision depth load agentname`. -/
def encodeFacts (state : CanonState) (port : Int) : String :=
  let depthClass := if state.depth ≤ depthThreshold ∨ state.position = "near" then "near" else "far"
  let vision := "vision(" ++ state.color ++ "," ++ state.position ++ ")."
  let depthF := "depth(" ++ depthClass ++ ")."
  let loadF := "load(" ++ state.load ++ ")."
  let nameF := "agentname(" ++ apos ++ toString port ++ ":" ++ apos ++ ")."
  let meta := ":- dynamic vision/2. :- dynamic depth/1. :- dynamic load/1. :- dynamic agentname/1."
  meta ++ " " ++ vision ++ " " ++ depthF ++ " " ++ loadF ++ " " ++ nameF

/-- Index of the first occurrence of `needle` as a contiguous substring of
the haystack, used to state relative-order facts about the fact bundle. -/
def subIdx (needle : List Char) : List Char → Option Nat
  | [] => if needle.isPrefixOf ([] : List Char) then some 0 else none
  | c :: rest =>
    if needle.isPrefixOf (c :: rest) then some 0
    else (subIdx needle rest).map (· + 1)

end RobotWorld

namespace Redis2LINDA

/-- One `str.replace` pass with single-character pattern and replacement,
as used by `makeAtomic` (on the character-list model of the string). -/
def repl (pat rep : Char) (s : List Char) : List Char :=
  s.map fun c => if c = pat then rep else c

/-- Embedding of `makeAtomic` from `Redis2LINDA.py`: the eleven successive
`replace` calls in source order. -/
def makeAtomic (s : List Char) : List Char :=
  repl ':' 'J'
    (repl ' ' 'O'
      (repl (Char.ofNat 39) 'I'
        (repl '\\' 'H'
          (repl '/' 'G'
            (repl ',' 'F'
              (repl '.' 'E'
                (repl ']' 'D'
                  (repl '[' 'C'
                    (repl ')' 'B'
                      (repl '(' 'A' s))))))))))

/-- The eleven reserved characters that `makeAtomic` eliminates. -/
def isReserved (c : Char) : Bool :=
  c ∈ ['(', ')', '[', ']', '.', ',', '/', '\\', Char.ofNat 39, ' ', ':']

/-- The combined per-character substitution that the eleven passes apply:
each reserved character goes to its placeholder letter, everything else is
unchanged (the placeholder letters are not themselves reserved, so later
passes never touch an earlier pass's output). -/
def atomizeChar (c : Char) : Char :=
  if c = '(' then 'A'
  else if c = ')' then 'B'
  else if c = '[' then 'C'
  else if c = ']' then 'D'
  else if c = '.' then 'E'
  else if c = ',' then 'F'
  else if c = '/' then 'G'
  else if c = '\\' then 'H'
  else if c = Char.ofNat 39 then 'I'
  else if c = ' ' then 'O'
  else if c = ':' then 'J'
  else c

/-- The per-character effect of the eleven passes applied in source order
(innermost first), written so that one step of `makeAtomic` unfolds to it
definitionally. -/
def chainChar (c : Char) : Char :=
  let c1 := if c = '(' then 'A' else c
  let c2 := if c1 = ')' then 'B' else c1
  let c3 := if c2 = '[' then 'C' else c2
  let c4 := if c3 = ']' then 'D' else c3
  let c5 := if c4 = '.' then 'E' else c4
  let c6 := if c5 = ',' then 'F' else c5
  let c7 := if c6 = '/' then 'G' else c6
  let c8 := if c7 = '\\' then 'H' else c7
  let c9 := if c8 = Char.ofNat 39 then 'I' else c8
  let c10 := if c9 = ' ' then 'O' else c9
  if c10 = ':' then 'J' else c10

end Redis2LINDA

namespace RobotWorld

/-- Concrete canonical state `{red, center, 0.5, empty}` from the spec's
example scenario. -/
def csFar : CanonState := { color := "red", position := "center", depth := mkRat 1 2, load := "empty" }

/-- Concrete canonical state with depth `0.16`, below the `0.17`
threshold. -/
def csLow : CanonState := { color := "red", position := "center", depth := mkRat 16 100, load := "empty" }

/-- Concrete canonical state whose position is `near` but whose depth
`0.5` is above the threshold. -/
def csNear : CanonState := { color := "red", position := "near", depth := mkRat 1 2, load := "empty" }

/-- The executable absolute difference agrees with `|a - b|`. -/
theorem ratAbsDiff_eq_abs_sub (a b : ℚ) : ratAbsDiff a b = |a - b| := by
  have hda : ((a.den : ℚ)) ≠ 0 := Nat.cast_ne_zero.mpr a.den_nz
  have hdb : ((b.den : ℚ)) ≠ 0 := Nat.cast_ne_zero.mpr b.den_nz
  have h : (mkRat (a.num * (b.den : Int) - b.num * (a.den : Int)) (a.den * b.den) : ℚ) = a - b := by
    rw [Rat.mkRat_eq_div]
    push_cast
    conv_rhs => rw [← Rat.num_div_den a, ← Rat.num_div_den b]
    rw [div_sub_div _ _ hda hdb]
    ring_nf
  simp only [ratAbsDiff]
  rw [h]
  rcases lt_or_le (a - b) 0 with hlt | hle
  · rw [if_pos hlt, abs_of_neg hlt]
  · rw [if_neg (not_lt.mpr hle), abs_of_nonneg hle]

/-- Unfolded form of `compare_states` with the source's `abs` spelled via
Mathlib's absolute value, matching `abs(new - dali_depth) >= 0.02`. -/
theorem compare_states_abs (dali_depth : ℚ) (old new : CanonState) :
    compare_states dali_depth old new =
      (decide (old.color ≠ new.color) || decide (old.position ≠ new.position) ||
       decide (old.load ≠ new.load) ||
       decide (hysteresis ≤ |new.depth - dali_depth|)) := by
  rw [compare_states, ratAbsDiff_eq_abs_sub]

/-- A `think` step on an unchanged, above-threshold reading with impulse
count at most 5 replays the previous action and only increments the
counter. -/
theorem think_replay_eq (b : BrainState) (old new : CanonState) (a : String)
    (hold : b.state = some old) (hch : compare_states b.dali_depth old new = false)
    (hn : b.no_dali_count ≤ 5) (hd : depthThreshold < new.depth) :
    think b new a =
      ⟨⟨some new, b.dali_depth, b.no_dali_count + 1, b.previous_action⟩, b.previous_action, false, false⟩ := by
  obtain ⟨bs, bd, bc, bp⟩ := b
  dsimp only at hold hch hn
  subst hold
  have h5 : ¬ 5 < bc := not_lt.mpr hn
  have hdd : ¬ new.depth ≤ depthThreshold := not_le.mpr hd
  simp [think, hch, h5, hdd]

/-- A `think` step with the impulse counter above 5 takes the main
consultation branch: stop, reset, consult, record. -/
theorem think_overflow_eq (b : BrainState) (old new : CanonState) (a : String)
    (hold : b.state = some old) (h6 : 5 < b.no_dali_count) :
    think b new a = ⟨⟨some new, new.depth, 0, some a⟩, some a, true, true⟩ := by
  obtain ⟨bs, bd, bc, bp⟩ := b
  dsimp only at hold h6
  subst hold
  simp [think, h6]

/-- One `think` step never leaves the impulse counter above 6. -/
theorem think_count_le_six (b : BrainState) (s : CanonState) (a : String) :
    (think b s a).brain.no_dali_count ≤ 6 := by
  obtain ⟨bs, bd, bc, bp⟩ := b
  rcases bs with _ | old
  · simp [think]
  · simp only [think]
    split
    · simp
    · rename_i h
      have hc : bc ≤ 5 := by
        simp only [Bool.or_eq_true, decide_eq_true_eq, not_or] at h
        exact not_lt.mp h.2
      split <;> (dsimp only; omega)

/-- C1: for every impulse count at most 5 and every pair of old/new
canonical states, a new depth at or below the 0.17 threshold makes the
think cycle consult the external reasoner rather than replay the previous
action. -/
theorem safety_override_dominance (b : BrainState) (old new : CanonState) (a : String)
    (hold : b.state = some old) (hn : b.no_dali_count ≤ 5) (hd : new.depth ≤ depthThreshold) :
    (think b new a).consulted = true := by
  obtain ⟨bs, bd, bc, bp⟩ := b
  dsimp only at hold hn
  subst hold
  cases hch : compare_states bd old new
  · simp only [think, hch, Bool.false_or]
    split
    · rfl
    · simp [hd]
  · simp [think, hch]

/-- Witness for C1 at a concrete brain state and reading. -/
theorem safety_override_dominance_witness :
    (think ⟨some csLow, mkRat 16 100, 2, some ("go:2")⟩ csLow "x").consulted = true :=
  safety_override_dominance ⟨some csLow, mkRat 16 100, 2, some ("go:2")⟩ csLow csLow "x" rfl
    (by decide) (by decide)

/-- C2 counterexample: a consultation triggered by the depth-based safety
override (reachable state after a first cycle with depth 0.16) does not
issue a stop, leaves the recorded last action unchanged, and increments
the impulse counter instead of resetting it. -/
theorem ground_override_consult_cx :
    (think (runBrain initialBrain [(csLow, "go:2")]) csLow "left:90").consulted = true ∧
    (think (runBrain initialBrain [(csLow, "go:2")]) csLow "left:90").stopIssued = false ∧
    (think (runBrain initialBrain [(csLow, "go:2")]) csLow "left:90").brain.no_dali_count = 1 ∧
    (think (runBrain initialBrain [(csLow, "go:2")]) csLow "left:90").brain.previous_action =
      some ("go:2") := by
  decide

/-- C2 amended: consultations taken through the changed-or-overflow branch
stop the unit, reset the counter and record the action; the consultation
taken through the depth override in `ground_decision` issues no stop,
increments the counter and leaves the recorded action unchanged. -/
theorem consult_entry_effects (b : BrainState) (old new : CanonState) (a : String)
    (hold : b.state = some old) :
    ((compare_states b.dali_depth old new = true ∨ 5 < b.no_dali_count) →
      think b new a = ⟨⟨some new, new.depth, 0, some a⟩, some a, true, true⟩) ∧
    (compare_states b.dali_depth old new = false → b.no_dali_count ≤ 5 →
      new.depth ≤ depthThreshold →
      think b new a =
        ⟨⟨some new, new.depth, b.no_dali_count + 1, b.previous_action⟩, some a, true, false⟩) := by
  obtain ⟨bs, bd, bc, bp⟩ := b
  dsimp only at hold ⊢
  subst hold
  constructor
  · rintro (hch | hcnt)
    · simp [think, hch]
    · simp [think, hcnt]
  · intro hch hcnt hd
    have h5 : ¬ 5 < bc := not_lt.mpr hcnt
    simp [think, hch, h5, hd]

/-- Witness for C2's amended claim: both branches evaluated at concrete
inputs. -/
theorem consult_entry_effects_witness :
    think ⟨some csLow, mkRat 16 100, 0, some ("go:2")⟩ csLow "left:90" =
      ⟨⟨some csLow, mkRat 16 100, 1, some ("go:2")⟩, some ("left:90"), true, false⟩ :=
  (consult_entry_effects ⟨some csLow, mkRat 16 100, 0, some ("go:2")⟩ csLow csLow "left:90"
    rfl).2 (by decide) (by decide) (by decide)

/-- C3 counterexample: after one consulting cycle and six identical
unchanged far cycles, the impulse counter observable between cycles
equals 6, outside the claimed 0..5 range. -/
theorem impulse_count_reaches_six :
    (runBrain initialBrain (List.replicate 7 (csFar, "go:2"))).no_dali_count = 6 := by
  decide

/-- Every run of the control loop keeps the counter at most 6 once it
starts at most 6. -/
theorem runBrain_count_le_six_aux (inputs : List (CanonState × String)) :
    ∀ b : BrainState, b.no_dali_count ≤ 6 → (runBrain b inputs).no_dali_count ≤ 6 := by
  induction inputs with
  | nil => intro b hb; simpa [runBrain] using hb
  | cons p rest ih =>
    intro b hb
    obtain ⟨s, a⟩ := p
    simpa [runBrain] using ih (think b s a).brain (think_count_le_six b s a)

/-- C3 amended: for every sequence of readings the impulse counter stays
in 0..6 inclusive between control cycles (it reaches 6 after six
locally-decided cycles and is reset by the following consultation). -/
theorem impulse_counter_bounded (inputs : List (CanonState × String)) :
    (runBrain initialBrain inputs).no_dali_count ≤ 6 :=
  runBrain_count_le_six_aux inputs initialBrain (by decide)

/-- C4 counterexample: starting right after a consultation, six
consecutive unchanged non-near cycles all replay; the sixth does not
force a consultation. -/
theorem sixth_unchanged_cycle_replays_cx :
    runTrace (think initialBrain csFar "go:2").brain (List.replicate 6 (csFar, "x")) =
      [false, false, false, false, false, false] := by
  decide

/-- C4 amended: from impulse count 0, unchanged above-threshold cycles
replay six times and the seventh consecutive such cycle forces the
consultation (impulse-count overflow). -/
theorem impulse_overflow_on_seventh (b : BrainState) (s : CanonState) (a : String)
    (hold : b.state = some s) (h0 : b.no_dali_count = 0)
    (hch : compare_states b.dali_depth s s = false) (hd : depthThreshold < s.depth) :
    runTrace b (List.replicate 7 (s, a)) = [false, false, false, false, false, false, true] := by
  obtain ⟨bs, bd, bc, bp⟩ := b
  dsimp only at hold h0 hch
  subst hold
  subst h0
  have step : ∀ k, k ≤ 5 → think ⟨some s, bd, k, bp⟩ s a = ⟨⟨some s, bd, k + 1, bp⟩, bp, false, false⟩ :=
    fun k hk => think_replay_eq ⟨some s, bd, k, bp⟩ s s a rfl hch hk hd
  have step6 : think ⟨some s, bd, 6, bp⟩ s a = ⟨⟨some s, s.depth, 0, some a⟩, some a, true, true⟩ :=
    think_overflow_eq ⟨some s, bd, 6, bp⟩ s s a rfl (by exact Nat.le.refl)
  simp [List.replicate, runTrace, step 0 (by omega), step 1 (by omega), step 2 (by omega),
    step 3 (by omega), step 4 (by omega), step 5 (by omega), step6]

/-- Witness for C4's amended claim at a concrete post-consultation
state. -/
theorem impulse_overflow_on_seventh_witness :
    runTrace ⟨some csFar, mkRat 1 2, 0, some ("go:2")⟩ (List.replicate 7 (csFar, "x")) =
      [false, false, false, false, false, false, true] :=
  impulse_overflow_on_seventh ⟨some csFar, mkRat 1 2, 0, some ("go:2")⟩ csFar "x" rfl rfl
    (by decide) (by decide)

/-- C5 counterexample: in the reachable state whose position is `near`
with depth 0.5, an unchanged cycle still replays the previous action
verbatim (the replay path never inspects the position). -/
theorem near_position_replay_cx :
    (think (runBrain initialBrain [(csNear, "go:2")]) csNear "x").consulted = false ∧
    (think (runBrain initialBrain [(csNear, "go:2")]) csNear "x").action = some ("go:2") := by
  decide

/-- C5 amended: the previous action is replayed exactly when the state is
unchanged, the impulse count is at most 5 and the depth exceeds the
threshold; the position plays no role in the replay decision. -/
theorem replay_characterization (b : BrainState) (old new : CanonState) (a : String)
    (hold : b.state = some old) :
    ((think b new a).consulted = false ↔
      (compare_states b.dali_depth old new = false ∧ b.no_dali_count ≤ 5 ∧
        depthThreshold < new.depth)) := by
  obtain ⟨bs, bd, bc, bp⟩ := b
  dsimp only at hold ⊢
  subst hold
  cases hch : compare_states bd old new
  · by_cases h5 : 5 < bc
    · have h5' : ¬ bc ≤ 5 := not_le.mpr h5
      simp [think, hch, h5, h5']
    · by_cases hd : new.depth ≤ depthThreshold
      · have hd' : ¬ depthThreshold < new.depth := not_lt.mpr hd
        simp [think, hch, h5, hd, hd']
      · simp [think, hch, h5, hd, not_lt.mp h5, not_le.mp hd]
  · simp [think, hch]

/-- Witness for C5's amended claim at a concrete near-position state. -/
theorem replay_characterization_witness :
    (think ⟨some csNear, mkRat 1 2, 3, some ("go:9")⟩ csNear "y").consulted = false :=
  (replay_characterization ⟨some csNear, mkRat 1 2, 3, some ("go:9")⟩ csNear csNear "y" rfl).mpr
    ⟨by decide, by decide, by decide⟩

/-- C6 counterexample: a frame without the `:` delimiter crashes the
receive loop instead of being skipped; the matching frame behind it is
never reached. -/
theorem malformed_frame_crash_cx :
    consultLoop 5 ["nodelimiter", "5:go:2"] = LoopResult.crash := by
  decide

/-- C6 amended: a frame containing no `:` delimiter makes the uncaught
`ValueError` from `msg.index` propagate out of the receive loop; the loop
crashes rather than logging and continuing. -/
theorem malformed_frame_crashes_loop (port : Int) (msg : String) (rest : List String)
    (h : findColon msg.toList = none) : consultLoop port (msg :: rest) = LoopResult.crash := by
  have h2 : findColon msg.data = none := h
  simp [consultLoop, processFrame, h2]

/-- Witness for C6's amended claim on a concrete delimiter-free frame. -/
theorem malformed_frame_crashes_loop_witness :
    consultLoop 7 ["badframe"] = LoopResult.crash :=
  malformed_frame_crashes_loop 7 "badframe" [] (by decide)

/-- C7 counterexample: an unknown verb with a well-formed integer
parameter makes `act` return silently without performing any action and
without an error. -/
theorem unknown_verb_param_noop_cx : act ("jump:3") = ActResult.noop := by
  decide

/-- C7 amended: `act` propagates an error exactly when the text has no `:`
and matches none of stop/unload/loadup, or when the text after the first
`:` is not a well-formed integer; an unknown verb with a well-formed
parameter instead returns silently with no action. -/
theorem act_err_iff (action : String) :
    act action = ActResult.err ↔
      ((findColon action.toList = none ∧ action ≠ "stop" ∧ action ≠ "unload" ∧
          action ≠ "loadup") ∨
        (∃ i, findColon action.toList = some i ∧
          parseInt (action.toList.drop (i + 1)) = none)) := by
  unfold act
  rcases h : findColon action.toList with _ | i
  · dsimp only
    split_ifs with h1 h2 h3
    · simp [h, h1]
    · simp [h, h1, h2]
    · simp [h, h1, h2, h3]
    · simp [h, h1, h2, h3]
  · dsimp only
    rcases hp : parseInt (action.toList.drop (i + 1)) with _ | v
    · dsimp only
      simp [h, show parseInt (List.drop (i + 1) action.data) = none from hp]
    · dsimp only
      split_ifs with g1 g2 g3
      · simp [h, show parseInt (List.drop (i + 1) action.data) = some v from hp]
      · simp [h, show parseInt (List.drop (i + 1) action.data) = some v from hp]
      · simp [h, show parseInt (List.drop (i + 1) action.data) = some v from hp]
      · simp [h, show parseInt (List.drop (i + 1) action.data) = some v from hp]

set_option maxRecDepth 4000 in
/-- C8 counterexample: in the fact bundle for the example state the
`vision` fact appears at index 84 and the `depth` fact at index 104, so
`depth(far).` does not precede `vision(red,center).` as claimed. -/
theorem fact_order_vision_before_depth_cx :
    subIdx ("vision(red,center).".toList) ((encodeFacts csFar 19999).toList) = some 84 ∧
    subIdx ("depth(far).".toList) ((encodeFacts csFar 19999).toList) = some 104 ∧
    (84 : Nat) < 104 := by
  refine ⟨by decide, by decide, by decide⟩

/-- C8 amended: the example state on the first cycle forces a
consultation, and the fact text is exactly the directives followed by
`vision(red,center). depth(far). load(empty).` (vision before depth
before load) and the agentname fact. -/
theorem encodeFacts_example_exact :
    (think initialBrain csFar "x").consulted = true ∧
    encodeFacts csFar 19999 =
      ":- dynamic vision/2. :- dynamic depth/1. :- dynamic load/1. :- dynamic agentname/1. vision(red,center). depth(far). load(empty). agentname(" ++
        apos ++ "19999:" ++ apos ++ ")." := by
  exact ⟨by decide, by decide⟩

/-- C10: change detection never reads the old state's depth — two old
states agreeing on the categorical fields compare identically against any
new state and reference depth. -/
theorem compare_states_ignores_old_depth (d : ℚ) (o1 o2 n : CanonState)
    (hc : o1.color = o2.color) (hp : o1.position = o2.position) (hl : o1.load = o2.load) :
    compare_states d o1 n = compare_states d o2 n := by
  simp [compare_states, hc, hp, hl]

/-- Witness for C10 at two old states differing only in depth. -/
theorem compare_states_ignores_old_depth_witness :
    compare_states (mkRat 1 2) ⟨"red", "center", mkRat 1 10, "empty"⟩ csFar =
      compare_states (mkRat 1 2) ⟨"red", "center", mkRat 9 10, "empty"⟩ csFar :=
  compare_states_ignores_old_depth (mkRat 1 2) ⟨"red", "center", mkRat 1 10, "empty"⟩
    ⟨"red", "center", mkRat 9 10, "empty"⟩ csFar rfl rfl rfl

end RobotWorld

namespace Redis2LINDA

/-- Unfolding `makeAtomic` on a cons: the head goes through the chained
substitution, the tail recursively. -/
theorem makeAtomic_cons (c : Char) (cs : List Char) :
    makeAtomic (c :: cs) = chainChar c :: makeAtomic cs := rfl

/-- The chained substitution agrees with the flat eleven-way case split:
the replacement letters are not themselves reserved, so at most one pass
of the chain fires. -/
theorem chainChar_eq_atomizeChar (c : Char) : chainChar c = atomizeChar c := by
  by_cases h1 : c = '('
  · subst h1; rfl
  by_cases h2 : c = ')'
  · subst h2; rfl
  by_cases h3 : c = '['
  · subst h3; rfl
  by_cases h4 : c = ']'
  · subst h4; rfl
  by_cases h5 : c = '.'
  · subst h5; rfl
  by_cases h6 : c = ','
  · subst h6; rfl
  by_cases h7 : c = '/'
  · subst h7; rfl
  by_cases h8 : c = '\\'
  · subst h8; rfl
  by_cases h9 : c = Char.ofNat 39
  · subst h9; rfl
  by_cases h10 : c = ' '
  · subst h10; rfl
  by_cases h11 : c = ':'
  · subst h11; rfl
  simp [chainChar, atomizeChar, h1, h2, h3, h4, h5, h6, h7, h8, h9, h10, h11]

/-- `makeAtomic` is the pointwise application of the combined
substitution. -/
theorem makeAtomic_eq_map (s : List Char) : makeAtomic s = s.map atomizeChar := by
  induction s with
  | nil => rfl
  | cons c cs ih => rw [makeAtomic_cons, chainChar_eq_atomizeChar, ih, List.map_cons]

/-- The combined substitution never produces a reserved character. -/
theorem atomizeChar_not_reserved (c : Char) : isReserved (atomizeChar c) = false := by
  by_cases h1 : c = '('
  · subst h1; decide
  by_cases h2 : c = ')'
  · subst h2; decide
  by_cases h3 : c = '['
  · subst h3; decide
  by_cases h4 : c = ']'
  · subst h4; decide
  by_cases h5 : c = '.'
  · subst h5; decide
  by_cases h6 : c = ','
  · subst h6; decide
  by_cases h7 : c = '/'
  · subst h7; decide
  by_cases h8 : c = '\\'
  · subst h8; decide
  by_cases h9 : c = Char.ofNat 39
  · subst h9; decide
  by_cases h10 : c = ' '
  · subst h10; decide
  by_cases h11 : c = ':'
  · subst h11; decide
  have hid : atomizeChar c = c := by
    simp [atomizeChar, h1, h2, h3, h4, h5, h6, h7, h8, h9, h10, h11]
  rw [hid]
  simp [isReserved, h1, h2, h3, h4, h5, h6, h7, h8, h9, h10, h11]

/-- The combined substitution leaves non-reserved characters unchanged. -/
theorem atomizeChar_of_not_reserved (c : Char) (h : isReserved c = false) :
    atomizeChar c = c := by
  simp only [isReserved, List.mem_cons, List.not_mem_nil, or_false, decide_eq_false_iff_not,
    not_or] at h
  obtain ⟨h1, h2, h3, h4, h5, h6, h7, h8, h9, h10, h11⟩ := h
  simp [atomizeChar, h1, h2, h3, h4, h5, h6, h7, h8, h9, h10, h11]

/-- C9: `makeAtomic` output contains no reserved character, preserves
length, and leaves every non-reserved input character unchanged at its
position. -/
theorem makeAtomic_substitution_complete (s : List Char) :
    (∀ c ∈ makeAtomic s, isReserved c = false) ∧
    (makeAtomic s).length = s.length ∧
    (∀ (i : Nat) (c : Char), s[i]? = some c → isReserved c = false → (makeAtomic s)[i]? = some c) := by
  refine ⟨?_, ?_, ?_⟩
  · intro c hc
    rw [makeAtomic_eq_map] at hc
    obtain ⟨a, _, rfl⟩ := List.mem_map.mp hc
    exact atomizeChar_not_reserved a
  · rw [makeAtomic_eq_map]
    exact List.length_map s atomizeChar
  · intro i c hi hres
    rw [makeAtomic_eq_map, List.getElem?_map, hi]
    simp [atomizeChar_of_not_reserved c hres]

/-- Witness for C9 on a concrete string. -/
theorem makeAtomic_substitution_complete_witness :
    (makeAtomic ("a:b".toList))[0]? = some ('a') :=
  (makeAtomic_substitution_complete ("a:b".toList)).2.2 0 'a' (by decide) (by decide)

end Redis2LINDA
